import Mathlib

/-!
# Verification of `streamlit_authenticator/authenticate.py`

A shallow embedding of the `Authenticate` class from
`src/streamlit_authenticator/authenticate.py`, together with proofs about the
behaviour of its credential checking, cookie-based reauthentication, logout,
registration, password reset and forgot-password operations.

Modelling conventions:
* A Python `dict` keyed by strings is modelled as an association list with
  Python insertion semantics (assignment to an existing key updates in place,
  assignment to a fresh key appends; keys are unique).
* Python `None`/`False`/`True` tri-state session values are `Option Bool`
  (`none` = `None`); Python truthiness of such a value holds exactly for `True`.
* `str.lower()` is modelled by mapping `Char.toLower` over the characters.
* Timestamps are integers counting seconds; `timedelta(days=d)` is `d * 86400`.
* The JWT layer (external `jwt` library) is modelled abstractly: an encoded
  token is its payload paired with the signing key, and decoding under a key
  succeeds exactly when the keys agree (signature verification).
* The bcrypt password check (external `bcrypt` library, absent from the
  sources) is an abstract parameter `checkpw : String → String → Except Unit Bool`;
  the `.error` case models `bcrypt.checkpw` raising an exception.  The `Hasher`
  helper (also absent from the sources) is an abstract `hashPw : String → String`.
  Modelled from the spec: "password hashing/verification utility".
* `utils.generate_random_pw` (absent from the sources) is an abstract
  parameter `randomPw : String`.  Modelled from the spec: "generates a random
  replacement password".
-/

namespace StreamlitAuth

/-- One value of the `credentials['usernames']` dictionary:
`{'name': ..., 'password': ..., 'email': ...}`. -/
structure UserEntry where
  name : String
  password : String
  email : String
deriving DecidableEq, Repr

/-- The `credentials['usernames']` dictionary, keyed by username. -/
abbrev Creds := List (String × UserEntry)

/-- Python dict lookup `m[k]` / `m.get(k)` on the usernames dictionary. -/
def dictFind : Creds → String → Option UserEntry
  | [], _ => none
  | (k', v) :: rest, k => if k' = k then some v else dictFind rest k

/-- Python dict assignment `m[k] = v`: update in place if the key is present,
append otherwise. -/
def dictSet : Creds → String → UserEntry → Creds
  | [], k, v => [(k, v)]
  | (k', v') :: rest, k, v =>
      if k' = k then (k', v) :: rest else (k', v') :: dictSet rest k v

/-- The keys of the usernames dictionary, in insertion order. -/
def dictKeys (m : Creds) : List String := m.map Prod.fst

/-- Python `m[u]['password'] = h`: overwrite the password stored under key `u`
(`u` is present at every call site; on an absent key this is a no-op where
Python would raise `KeyError`). -/
def overwritePassword (m : Creds) (u h : String) : Creds :=
  m.map fun kv => if kv.1 = u then (kv.1, { kv.2 with password := h }) else kv

/-- Python `str.lower()` (ASCII case folding, as in `Char.toLower`). -/
def pyLower (s : String) : String := ⟨s.data.map Char.toLower⟩

/-- The dict comprehension in `Authenticate.__init__` (line 30):
`{key.lower(): value for key, value in credentials['usernames'].items()}`. -/
def buildUsernames (input : Creds) : Creds :=
  input.foldl (fun acc kv => dictSet acc (pyLower kv.1) kv.2) []

/-- The four `st.session_state` fields the class maintains: `name`,
`username`, `authentication_status` and `logout`.  Each starts out as
Python `None` (`none`). -/
structure Session where
  name : Option String
  username : Option String
  authentication_status : Option Bool
  logout : Option Bool
deriving DecidableEq, Repr

/-- Session state as initialised by `Authenticate.__init__` (lines 37-44). -/
def initSession : Session := ⟨none, none, none, none⟩

/-- Python truthiness of a `None`/`False`/`True` session value. -/
def truthy : Option Bool → Bool
  | some true => true
  | _ => false

/-- The JWT payload built by `_token_encode` (lines 55-57):
`{'name': ..., 'username': ..., 'exp_date': ...}`. -/
structure TokenPayload where
  name : Option String
  username : Option String
  exp_date : Int
deriving DecidableEq, Repr

/-- An encoded JWT: payload plus the key that signed it. -/
structure SignedToken where
  payload : TokenPayload
  sigKey : String
deriving DecidableEq, Repr

/-- Model of `jwt.encode(payload, key, algorithm='HS256')` (`_token_encode`). -/
def tokenEncode (key : String) (p : TokenPayload) : SignedToken := ⟨p, key⟩

/-- Model of `_token_decode` (lines 59-71): `jwt.decode(token, key, algorithms=['HS256'])`,
returning `False` (here `none`) when verification raises. -/
def tokenDecode (key : String) (t : SignedToken) : Option TokenPayload :=
  if t.sigKey = key then some t.payload else none

/-- Model of `_set_exp_date` (lines 73-82):
`(datetime.utcnow() + timedelta(days=cookie_expiry_days)).timestamp()`. -/
def setExpDate (cookie_expiry_days : Int) (now : Int) : Int :=
  now + cookie_expiry_days * 86400

/-- The mutable state an `Authenticate` instance acts on: the credentials
dictionary, the reauthentication cookie held by the cookie manager, and the
session state. -/
structure AuthState where
  credentials : Creds
  cookie : Option SignedToken
  session : Session
deriving DecidableEq, Repr

/-- Model of `_check_cookie` (lines 96-109) at clock value `now`: fetch the cookie,
decode it, and when decoding succeeds, the `logout` flag is not truthy, the
embedded `exp_date` is strictly in the future and the payload carries the
`username` key (always true for payloads produced by `_token_encode`; Python's
`'name' and 'username' in self.token` only tests `'username'`), restore
`name`/`username` and set `authentication_status` to `True`. -/
def checkCookie (key : String) (now : Int) (st : AuthState) : AuthState :=
  match st.cookie with
  | none => st
  | some tok =>
    match tokenDecode key tok with
    | none => st
    | some p =>
      if truthy st.session.logout then st
      else if p.exp_date > now then
        { st with session :=
            { st.session with
                name := p.name, username := p.username,
                authentication_status := some true } }
      else st

/-- Model of `_check_credentials` (lines 111-148) with entered `username`/`password`.
Returns the state after the call together with the Python return value
(`none` models Python returning `None`, which happens in `inplace` mode and
when `_check_pw` raises).  On success in `inplace` mode it stores the user's
display name, encodes a fresh cookie expiring `cookie_expiry_days` from `now`
and sets `authentication_status` to `True`. -/
def checkCredentials (checkpw : String → String → Except Unit Bool)
    (key : String) (cookie_expiry_days : Int) (now : Int)
    (username password : String) (inplace : Bool) (st : AuthState) :
    AuthState × Option Bool :=
  match dictFind st.credentials username with
  | some entry =>
    match checkpw password entry.password with
    | .ok true =>
      if inplace then
        let s1 := { st.session with name := some entry.name }
        let exp := setExpDate cookie_expiry_days now
        let tok := tokenEncode key ⟨s1.name, s1.username, exp⟩
        ({ st with
            cookie := some tok,
            session := { s1 with authentication_status := some true } }, none)
      else (st, some true)
    | .ok false =>
      if inplace then
        ({ st with session :=
            { st.session with authentication_status := some false } }, none)
      else (st, some false)
    | .error _ => (st, none)
  | none =>
    if inplace then
      ({ st with session :=
          { st.session with authentication_status := some false } }, none)
    else (st, some false)

/-- The body of `logout` once the button is pressed (lines 208-213 / 215-220):
delete the cookie, set the `logout` flag, and reset `name`, `username` and
`authentication_status` to `None`. -/
def logoutPress (st : AuthState) : AuthState :=
  { st with
      cookie := none,
      session := ⟨none, none, none, some true⟩ }

/-- Model of `login` (lines 150-192) with the form submitted: if the session is not
already authenticated, first try the cookie; if that leaves the session
unauthenticated, lowercase the entered username, store it in the session and
run `_check_credentials` in `inplace` mode. -/
def loginSubmit (checkpw : String → String → Except Unit Bool)
    (key : String) (cookie_expiry_days : Int) (now : Int)
    (raw_username password : String) (st : AuthState) : AuthState :=
  if truthy st.session.authentication_status then st
  else
    let st1 := checkCookie key now st
    if st1.session.authentication_status = some true then st1
    else
      let u := pyLower raw_username
      let st2 := { st1 with session := { st1.session with username := some u } }
      (checkCredentials checkpw key cookie_expiry_days now u password true st2).1

/-- The `preauthorized` dictionary (in practice `{'emails': [...]}`),
modelled as a string-keyed dictionary of email lists. -/
abbrev PreDict := List (String × List String)

/-- The `preauthorized` constructor argument: Python `None` or a dictionary. -/
abbrev Preauth := Option PreDict

/-- Python truthiness test `not self.preauthorized` (line 322): true exactly
for `None` and for an empty dictionary. -/
def pyFalsy : Preauth → Bool
  | none => true
  | some [] => true
  | some (_ :: _) => false

/-- Model of `self.preauthorized['emails']` as used in the membership test on line 346
(an absent `'emails'` key, which would raise `KeyError`, yields `[]` here;
every call site uses a dictionary carrying the key). -/
def preEmails (p : PreDict) : List String :=
  ((p.find? fun kv => kv.1 = "emails").map Prod.snd).getD []

/-- Model of `self.preauthorized['emails'].remove(email)` (line 295): drop the first
occurrence of `email` from the list stored under `'emails'`. -/
def preRemove (p : PreDict) (e : String) : PreDict :=
  p.map fun kv => if kv.1 = "emails" then (kv.1, kv.2.erase e) else kv

/-- Model of `_register_credentials` (lines 280-302).  The first guard mirrors Python's
`len(new_username) and len(new_name) and len(new_password) > 0`, which is
truthy exactly when all three strings are non-empty.  Returns the status
string, the resulting credentials dictionary and the resulting
`preauthorized` dictionary. -/
def registerCredentials (hashPw : String → String)
    (new_username new_name new_password new_password_repeat registered_email : String)
    (preauthorization : Bool) (creds : Creds) (pre : PreDict) :
    String × Creds × PreDict :=
  if new_username.length ≠ 0 ∧ new_name.length ≠ 0 ∧ new_password.length > 0 then
    if (dictFind creds new_username).isNone then
      if new_password = new_password_repeat then
        ("User registered successfully",
         dictSet creds new_username
           ⟨new_name, hashPw new_password, registered_email⟩,
         if preauthorization then preRemove pre registered_email else pre)
      else ("Passwords do not match", creds, pre)
    else ("Username already taken", creds, pre)
  else ("Please enter a new username, name, and password", creds, pre)

/-- Model of `register_user` (lines 304-353) with submission flag `submitted`.  The
guard `if not self.preauthorized: raise ValueError(...)` comes first and is
modelled by the `Except` error; afterwards the entered username is lowercased
(line 338) and, on submission, either the preauthorization gate or
`_register_credentials` runs.  The `ok` value is the displayed status (if
any) with the resulting credentials and `preauthorized` dictionaries. -/
def registerUser (hashPw : String → String)
    (registered_email raw_username new_name new_password new_password_repeat : String)
    (preauthorization : Bool) (submitted : Bool)
    (creds : Creds) (preauthorized : Preauth) :
    Except String (Option String × Creds × Preauth) :=
  match preauthorized with
  | none => .error "Register argument must not be None"
  | some [] => .error "Register argument must not be None"
  | some pre =>
    let new_username := pyLower raw_username
    if submitted then
      if preauthorization then
        if registered_email ∈ preEmails pre then
          let r := registerCredentials hashPw new_username new_name
            new_password new_password_repeat registered_email
            preauthorization creds pre
          .ok (some r.1, r.2.1, some r.2.2)
        else .ok (some "User not authorized to register", creds, some pre)
      else
        let r := registerCredentials hashPw new_username new_name
          new_password new_password_repeat registered_email
          preauthorization creds pre
        .ok (some r.1, r.2.1, some r.2.2)
    else .ok (none, creds, some pre)

/-- Model of `_update_password` (lines 222-241) for entered `username`/`password` and
new password pair.  `_check_credentials(inplace=False)` is consulted first
(its result is truthy only for Python `True`); the stored hash is overwritten
only when that check passes, the new password is non-empty and it equals its
confirmation. -/
def updatePassword (checkpw : String → String → Except Unit Bool)
    (hashPw : String → String)
    (username password new_password new_password_repeat : String)
    (creds : Creds) : String × Creds :=
  if truthy (checkCredentials checkpw "" 0 0 username password false
      ⟨creds, none, initSession⟩).2 then
    if new_password.length > 0 then
      if new_password = new_password_repeat then
        ("Password reset successfully",
         overwritePassword creds username (hashPw new_password))
      else ("Passwords do not match", creds)
    else ("Please enter a new password", creds)
  else ("Username/password is incorrect", creds)

/-- Model of `_set_password` (lines 355-367) with the freshly generated password
`randomPw`: when the username is known, overwrite its stored hash with the
hash of `randomPw` and return `randomPw`; otherwise return Python `None`. -/
def setPassword (hashPw : String → String) (randomPw : String)
    (username : String) (creds : Creds) : Option String × Creds :=
  if (dictFind creds username).isSome then
    (some randomPw, overwritePassword creds username (hashPw randomPw))
  else (none, creds)

/-- Python truthiness of `self._set_password()`'s result (line 395): `None`
and the empty string are falsy. -/
def truthyStr : Option String → Bool
  | none => false
  | some s => s.length != 0

/-- Model of `forgot_password` (lines 369-400) with the form submitted: lowercase the
entered username, run `_set_password`, and return the
`(username, email, new password)` triple on success and `(None, None, None)`
otherwise, together with the resulting credentials dictionary. -/
def forgotPassword (hashPw : String → String) (randomPw : String)
    (raw_username : String) (creds : Creds) :
    (Option String × Option String × Option String) × Creds :=
  let username := pyLower raw_username
  let r := setPassword hashPw randomPw username creds
  if truthyStr r.1 then
    ((some username, (dictFind r.2 username).map (fun e => e.email), some randomPw), r.2)
  else ((none, none, none), r.2)

/-- Model of `reset_password` (lines 243-278) with the form submitted: the entered
username is lowercased (line 271) before `_update_password` runs. -/
def resetPasswordSubmit (checkpw : String → String → Except Unit Bool)
    (hashPw : String → String)
    (raw_username password new_password new_password_repeat : String)
    (creds : Creds) : String × Creds :=
  updatePassword checkpw hashPw (pyLower raw_username) password
    new_password new_password_repeat creds

/-! ## Helper lemmas -/

theorem char_toNat_ofNat {n : Nat} (h : n.isValidChar) :
    (Char.ofNat n).toNat = n := by
  simp [Char.ofNat, h, Char.ofNatAux, Char.toNat, UInt32.toNat,
    BitVec.toNat_ofNatLt]

theorem char_toLower_idem (c : Char) : c.toLower.toLower = c.toLower := by
  unfold Char.toLower
  by_cases h : c.toNat ≥ 65 ∧ c.toNat ≤ 90
  · rw [if_pos h]
    have hv : (c.toNat + 32).isValidChar := Or.inl (by omega)
    rw [char_toNat_ofNat hv, if_neg (by omega)]
  · rw [if_neg h, if_neg h]

theorem pyLower_idem (s : String) : pyLower (pyLower s) = pyLower s := by
  simp [pyLower, List.map_map, Function.comp_def, char_toLower_idem]

theorem dictFind_dictSet_self (m : Creds) (k : String) (v : UserEntry) :
    dictFind (dictSet m k v) k = some v := by
  induction m with
  | nil => simp [dictSet, dictFind]
  | cons kv rest ih =>
    obtain ⟨k', v'⟩ := kv
    by_cases h : k' = k <;> simp [dictSet, dictFind, h, ih]

theorem dictFind_eq_none_iff (m : Creds) (k : String) :
    dictFind m k = none ↔ k ∉ dictKeys m := by
  induction m with
  | nil => simp [dictFind, dictKeys]
  | cons kv rest ih =>
    obtain ⟨k', v'⟩ := kv
    by_cases h : k' = k
    · subst h; simp [dictFind, dictKeys]
    · have h2 : ¬ k = k' := fun hc => h hc.symm
      simp [dictFind, dictKeys, h, h2, ih]

theorem dictKeys_dictSet_of_present (m : Creds) (k : String) (v : UserEntry)
    (h : (dictFind m k).isSome) : dictKeys (dictSet m k v) = dictKeys m := by
  induction m with
  | nil => simp [dictFind] at h
  | cons kv rest ih =>
    obtain ⟨k', v'⟩ := kv
    by_cases hk : k' = k
    · simp [dictSet, dictKeys, hk]
    · simp [dictFind, hk] at h
      have ih2 := ih h
      simp [dictKeys] at ih2
      simp [dictSet, dictKeys, hk, ih2]

theorem dictKeys_dictSet_of_absent (m : Creds) (k : String) (v : UserEntry)
    (h : dictFind m k = none) : dictKeys (dictSet m k v) = dictKeys m ++ [k] := by
  induction m with
  | nil => simp [dictSet, dictKeys]
  | cons kv rest ih =>
    obtain ⟨k', v'⟩ := kv
    by_cases hk : k' = k
    · simp [dictFind, hk] at h
    · simp [dictFind, hk] at h
      have ih2 := ih h
      simp [dictKeys] at ih2
      simp [dictSet, dictKeys, hk, ih2]

theorem overwritePassword_cons (k' : String) (v' : UserEntry) (rest : Creds)
    (u h : String) :
    overwritePassword ((k', v') :: rest) u h
      = (if k' = u then (k', { v' with password := h }) else (k', v'))
          :: overwritePassword rest u h := by
  by_cases hk : k' = u <;> simp [overwritePassword, hk]

theorem dictKeys_overwritePassword (m : Creds) (u h : String) :
    dictKeys (overwritePassword m u h) = dictKeys m := by
  induction m with
  | nil => simp [overwritePassword, dictKeys]
  | cons kv rest ih =>
    obtain ⟨k', v'⟩ := kv
    rw [overwritePassword_cons]
    by_cases hk : k' = u <;> simp [dictKeys, hk] <;> simpa [dictKeys] using ih

theorem dictFind_overwritePassword_self (m : Creds) (u h : String) :
    dictFind (overwritePassword m u h) u
      = (dictFind m u).map fun e => { e with password := h } := by
  induction m with
  | nil => simp [overwritePassword, dictFind]
  | cons kv rest ih =>
    obtain ⟨k', v'⟩ := kv
    by_cases hk : k' = u
    · subst hk; rw [overwritePassword_cons, if_pos rfl]; simp [dictFind]
    · rw [overwritePassword_cons, if_neg hk]; simp [dictFind, hk, ih]

/-- The class invariant on the usernames dictionary: every key is already
lowercased and keys are unique. -/
def credsInvariant (m : Creds) : Prop :=
  (∀ s ∈ dictKeys m, pyLower s = s) ∧ (dictKeys m).Nodup

instance (m : Creds) : Decidable (credsInvariant m) := by
  unfold credsInvariant; infer_instance

theorem credsInvariant_of_keys_eq {m m' : Creds}
    (h : dictKeys m' = dictKeys m) (hm : credsInvariant m) :
    credsInvariant m' := by
  unfold credsInvariant at *
  rw [h]; exact hm

theorem credsInvariant_dictSet (m : Creds) (k : String) (v : UserEntry)
    (hm : credsInvariant m) (hk : pyLower k = k) :
    credsInvariant (dictSet m k v) := by
  obtain ⟨hlow, hnd⟩ := hm
  cases hf : dictFind m k with
  | some e =>
    have := dictKeys_dictSet_of_present m k v (by simp [hf])
    exact credsInvariant_of_keys_eq this ⟨hlow, hnd⟩
  | none =>
    rw [credsInvariant, dictKeys_dictSet_of_absent m k v hf]
    constructor
    · intro s hs
      rcases List.mem_append.mp hs with h1 | h2
      · exact hlow s h1
      · simp at h2; subst h2; exact hk
    · have hk' : k ∉ dictKeys m := (dictFind_eq_none_iff m k).mp hf
      simp [List.nodup_append, hnd, hk']

theorem credsInvariant_overwritePassword (m : Creds) (u h : String)
    (hm : credsInvariant m) : credsInvariant (overwritePassword m u h) :=
  credsInvariant_of_keys_eq (dictKeys_overwritePassword m u h) hm

theorem credsInvariant_buildUsernames (input : Creds) :
    credsInvariant (buildUsernames input) := by
  suffices h : ∀ acc : Creds, credsInvariant acc →
      credsInvariant (input.foldl (fun acc kv => dictSet acc (pyLower kv.1) kv.2) acc) by
    exact h [] ⟨by simp [dictKeys], by simp [dictKeys]⟩
  induction input with
  | nil => intro acc hacc; simpa using hacc
  | cons kv rest ih =>
    intro acc hacc
    exact ih _ (credsInvariant_dictSet acc (pyLower kv.1) kv.2 hacc (pyLower_idem kv.1))

/-! ## Concrete fixtures (used by witnesses and counterexamples) -/

/-- A sample stored user record. -/
def entryAlice : UserEntry := ⟨"Alice", "h:pw", "alice@example.com"⟩

/-- A sample usernames dictionary. -/
def credsC : Creds := [("alice", entryAlice)]

/-- A concrete instantiation of the abstract bcrypt check: the stored string
matches exactly when it is `"h:"` followed by the password. -/
def cpwC : String → String → Except Unit Bool :=
  fun p h => .ok (h == "h:" ++ p)

/-- A concrete instantiation of the abstract bcrypt check that always raises. -/
def cpwErr : String → String → Except Unit Bool := fun _ _ => .error ()

/-- A concrete instantiation of the abstract password hasher. -/
def hashC : String → String := fun p => "h:" ++ p

/-! ## Claim theorems -/

/-- C1. For every username present in the credentials map whose stored
hash matches the supplied plaintext password (the bcrypt check returns
`True`), `_check_credentials` reports success: `authentication_status`
becomes `True` in `inplace` mode, and `True` is returned when `inplace` is
false.  For every mismatching password (bcrypt check returns `False`) and for
every username absent from the map, it reports failure: `authentication_status`
becomes `False` in `inplace` mode, and `False` is returned otherwise. -/
theorem checkCredentials_correct
    (checkpw : String → String → Except Unit Bool) (key : String)
    (days now : Int) (username password : String) (st : AuthState) :
    (∀ entry, dictFind st.credentials username = some entry →
      (checkpw password entry.password = .ok true →
        (checkCredentials checkpw key days now username password true st).1.session.authentication_status
            = some true ∧
        (checkCredentials checkpw key days now username password false st).2
            = some true) ∧
      (checkpw password entry.password = .ok false →
        (checkCredentials checkpw key days now username password true st).1.session.authentication_status
            = some false ∧
        (checkCredentials checkpw key days now username password false st).2
            = some false))
    ∧ (dictFind st.credentials username = none →
        (checkCredentials checkpw key days now username password true st).1.session.authentication_status
            = some false ∧
        (checkCredentials checkpw key days now username password false st).2
            = some false) := by
  refine ⟨fun entry he => ⟨fun hok => ?_, fun hbad => ?_⟩, fun he => ?_⟩
  · constructor <;> simp [checkCredentials, he, hok]
  · constructor <;> simp [checkCredentials, he, hbad]
  · constructor <;> simp [checkCredentials, he]

theorem checkCredentials_correct_witness :
    (checkCredentials cpwC "k" 30 0 "alice" "pw" true
        ⟨credsC, none, initSession⟩).1.session.authentication_status = some true ∧
    (checkCredentials cpwC "k" 30 0 "alice" "bad" false
        ⟨credsC, none, initSession⟩).2 = some false ∧
    (checkCredentials cpwC "k" 30 0 "bob" "pw" false
        ⟨credsC, none, initSession⟩).2 = some false := by
  refine ⟨?_, ?_, ?_⟩
  · exact (((checkCredentials_correct cpwC "k" 30 0 "alice" "pw"
      ⟨credsC, none, initSession⟩).1 entryAlice (by decide)).1 rfl).1
  · exact (((checkCredentials_correct cpwC "k" 30 0 "alice" "bad"
      ⟨credsC, none, initSession⟩).1 entryAlice (by decide)).2 rfl).2
  · exact ((checkCredentials_correct cpwC "k" 30 0 "bob" "pw"
      ⟨credsC, none, initSession⟩).2 (by decide)).2

/-- C8. If the underlying password check raises (models
`bcrypt.checkpw` throwing inside `_check_pw`), `_check_credentials` swallows
the exception: in `inplace` mode the whole state is left unchanged (in
particular `authentication_status` is never set to `True`) and Python `None`
is returned, and in non-`inplace` mode the state is unchanged and `None` — a
non-`True` value — is returned. -/
theorem checkCredentials_exception
    (checkpw : String → String → Except Unit Bool) (key : String)
    (days now : Int) (u p : String) (st : AuthState) (entry : UserEntry)
    (he : dictFind st.credentials u = some entry)
    (herr : checkpw p entry.password = .error ()) :
    checkCredentials checkpw key days now u p true st = (st, none) ∧
    checkCredentials checkpw key days now u p false st = (st, none) := by
  constructor <;> simp [checkCredentials, he, herr]

theorem checkCredentials_exception_witness :
    checkCredentials cpwErr "k" 30 0 "alice" "pw" true ⟨credsC, none, initSession⟩
        = (⟨credsC, none, initSession⟩, none) ∧
    checkCredentials cpwErr "k" 30 0 "alice" "pw" false ⟨credsC, none, initSession⟩
        = (⟨credsC, none, initSession⟩, none) :=
  checkCredentials_exception cpwErr "k" 30 0 "alice" "pw"
    ⟨credsC, none, initSession⟩ entryAlice (by decide) rfl

/-- C10. `register_user` raises `ValueError` (modelled by the `Except`
error) whenever the `preauthorized` collection supplied at construction is
Python-falsy — `None` or empty — even when it is called with
`preauthorization` set to `False`; the raise happens before the registration
form is processed, so no registration occurs and the returned error carries
no modified credentials map. -/
theorem registerUser_valueError (hashPw : String → String)
    (e raw n p pr : String) (b sub : Bool) (creds : Creds) (preM : Preauth)
    (h : pyFalsy preM = true) :
    registerUser hashPw e raw n p pr b sub creds preM
      = .error "Register argument must not be None" := by
  match preM with
  | none => rfl
  | some [] => rfl
  | some (kv :: rest) => simp [pyFalsy] at h

theorem registerUser_valueError_witness :
    registerUser hashC "e@x" "newuser" "New" "p" "p" false true credsC none
      = .error "Register argument must not be None" :=
  registerUser_valueError hashC "e@x" "newuser" "New" "p" "p" false true
    credsC none rfl

/-- C2, counterexample. The claim's acceptance direction fails as stated:
here is a correctly signed reauthentication token, verified strictly before
its embedded expiry, that `_check_cookie` does not accept — the session's
`logout` flag is set, and the session is left unchanged instead of being
authenticated. -/
theorem checkCookie_accept_counterexample :
    tokenDecode "k" (tokenEncode "k" ⟨some "Alice", some "alice", setExpDate 30 0⟩)
        = some ⟨some "Alice", some "alice", setExpDate 30 0⟩ ∧
    (5 : Int) < setExpDate 30 0 ∧
    checkCookie "k" 5
        ⟨credsC, some (tokenEncode "k" ⟨some "Alice", some "alice", setExpDate 30 0⟩),
         ⟨none, none, none, some true⟩⟩
      = ⟨credsC, some (tokenEncode "k" ⟨some "Alice", some "alice", setExpDate 30 0⟩),
         ⟨none, none, none, some true⟩⟩ ∧
    (⟨none, none, none, some true⟩ : Session).authentication_status ≠ some true := by
  refine ⟨rfl, by decide, rfl, by decide⟩

/-- C2, amended. A reauthentication token issued with an expiry horizon
of `days` days (expiry timestamp `setExpDate days issueNow`) is accepted by
`_check_cookie` — restoring `name` and `username` into the session and
setting `authentication_status` to `True` — at every verification time
strictly before the embedded expiry timestamp, *provided the session's
`logout` flag is not set*; and it is rejected, with the session left
unchanged, at every verification time at or after the expiry timestamp, and
whenever its signature does not verify under the configured key. -/
theorem checkCookie_spec (key : String) (days issueNow now : Int)
    (n u : Option String) (st : AuthState) :
    (st.cookie = some (tokenEncode key ⟨n, u, setExpDate days issueNow⟩) →
      truthy st.session.logout = false →
      now < setExpDate days issueNow →
      checkCookie key now st =
        { st with session :=
            { st.session with
                name := n, username := u, authentication_status := some true } })
    ∧ (st.cookie = some (tokenEncode key ⟨n, u, setExpDate days issueNow⟩) →
        setExpDate days issueNow ≤ now →
        checkCookie key now st = st)
    ∧ (∀ t : SignedToken, st.cookie = some t → t.sigKey ≠ key →
        checkCookie key now st = st) := by
  refine ⟨fun hc hl hfut => ?_, fun hc hexp => ?_, fun t hc hk => ?_⟩
  · simp [checkCookie, hc, tokenEncode, tokenDecode, hl, hfut]
  · simp [checkCookie, hc, tokenEncode, tokenDecode, not_lt.mpr hexp, ite_self]
  · simp [checkCookie, hc, tokenDecode, hk]

theorem checkCookie_spec_witness :
    checkCookie "k" 5
        ⟨credsC, some (tokenEncode "k" ⟨some "Alice", some "alice", setExpDate 30 0⟩),
         initSession⟩
      = ⟨credsC, some (tokenEncode "k" ⟨some "Alice", some "alice", setExpDate 30 0⟩),
         ⟨some "Alice", some "alice", some true, none⟩⟩ :=
  (checkCookie_spec "k" 30 0 5 (some "Alice") (some "alice")
      ⟨credsC, some (tokenEncode "k" ⟨some "Alice", some "alice", setExpDate 30 0⟩),
       initSession⟩).1 rfl rfl (by decide)

/-- The cookie check never touches the `logout` flag. -/
theorem checkCookie_logout_eq (key : String) (now : Int) (st : AuthState) :
    (checkCookie key now st).session.logout = st.session.logout := by
  unfold checkCookie
  split
  · rfl
  · split
    · rfl
    · split
      · rfl
      · split <;> rfl

/-- The function `_check_credentials` never touches the `logout` flag. -/
theorem checkCredentials_logout_eq
    (checkpw : String → String → Except Unit Bool) (key : String)
    (days now : Int) (u p : String) (ip : Bool) (st : AuthState) :
    (checkCredentials checkpw key days now u p ip st).1.session.logout
      = st.session.logout := by
  unfold checkCredentials
  split
  · split
    · split <;> rfl
    · split <;> rfl
    · rfl
  · split <;> rfl

/-- A login with the form submitted never touches the `logout` flag. -/
theorem loginSubmit_logout_eq
    (checkpw : String → String → Except Unit Bool) (key : String)
    (days now : Int) (raw p : String) (st : AuthState) :
    (loginSubmit checkpw key days now raw p st).session.logout
      = st.session.logout := by
  unfold loginSubmit
  by_cases ha : truthy st.session.authentication_status = true
  · simp [ha]
  · simp only [ha, if_false, Bool.false_eq_true]
    split
    · exact checkCookie_logout_eq key now st
    · rw [checkCredentials_logout_eq]
      exact checkCookie_logout_eq key now st

/-- C3, amended. Pressing the logout button, from any prior state,
deletes the reauthentication cookie, resets `name`, `username` and
`authentication_status` to `None` and sets the `logout` flag; while the flag
is set the cookie check never silently reauthenticates (it leaves the state
unchanged); and the flag is never cleared again — in particular a subsequent
explicit credential-based login leaves it set — so the suppression persists
for the remainder of the session rather than lasting only until the next
explicit login. -/
theorem logout_spec (checkpw : String → String → Except Unit Bool)
    (key : String) (days now : Int) (raw p u : String) (ip : Bool)
    (st : AuthState) :
    logoutPress st = ⟨st.credentials, none, ⟨none, none, none, some true⟩⟩
    ∧ (truthy st.session.logout = true → checkCookie key now st = st)
    ∧ (loginSubmit checkpw key days now raw p st).session.logout
        = st.session.logout
    ∧ (checkCredentials checkpw key days now u p ip st).1.session.logout
        = st.session.logout := by
  refine ⟨rfl, fun hl => ?_, loginSubmit_logout_eq checkpw key days now raw p st,
    checkCredentials_logout_eq checkpw key days now u p ip st⟩
  unfold checkCookie
  split
  · rfl
  · split
    · rfl
    · simp [hl]

theorem logout_spec_witness :
    logoutPress ⟨credsC, none, ⟨some "Alice", some "alice", some true, none⟩⟩
        = ⟨credsC, none, ⟨none, none, none, some true⟩⟩ ∧
    checkCookie "k" 5
        ⟨credsC, some (tokenEncode "k" ⟨some "Alice", some "alice", setExpDate 30 0⟩),
         ⟨none, none, none, some true⟩⟩
      = ⟨credsC, some (tokenEncode "k" ⟨some "Alice", some "alice", setExpDate 30 0⟩),
         ⟨none, none, none, some true⟩⟩ := by
  have h := logout_spec cpwC "k" 30 5 "alice" "pw" "alice" true
    ⟨credsC, some (tokenEncode "k" ⟨some "Alice", some "alice", setExpDate 30 0⟩),
     ⟨none, none, none, some true⟩⟩
  refine ⟨?_, h.2.1 rfl⟩
  exact (logout_spec cpwC "k" 30 5 "alice" "pw" "alice" true
    ⟨credsC, none, ⟨some "Alice", some "alice", some true, none⟩⟩).1

/-- The session state reached by: initial session, explicit logout, then a
successful explicit credential-based login (correct username and password). -/
def afterLogoutLogin : AuthState :=
  loginSubmit cpwC "k" 30 0 "alice" "pw" (logoutPress ⟨credsC, none, initSession⟩)

/-- C3, counterexample. The flag's suppression does not last "only until
the next explicit credential-based login": after an explicit logout followed
by a successful credential-based login, the `logout` flag is still set, and a
cookie check carrying that flag value — with a correctly signed, unexpired
token and an unauthenticated session — still refuses to reauthenticate. -/
theorem logout_flag_counterexample :
    afterLogoutLogin.session.authentication_status = some true ∧
    afterLogoutLogin.session.logout = some true ∧
    tokenDecode "k" (tokenEncode "k" ⟨some "Alice", some "alice", setExpDate 30 0⟩)
        = some ⟨some "Alice", some "alice", setExpDate 30 0⟩ ∧
    (5 : Int) < setExpDate 30 0 ∧
    checkCookie "k" 5
        ⟨credsC, some (tokenEncode "k" ⟨some "Alice", some "alice", setExpDate 30 0⟩),
         ⟨none, none, none, afterLogoutLogin.session.logout⟩⟩
      = ⟨credsC, some (tokenEncode "k" ⟨some "Alice", some "alice", setExpDate 30 0⟩),
         ⟨none, none, none, afterLogoutLogin.session.logout⟩⟩ ∧
    (⟨none, none, none, afterLogoutLogin.session.logout⟩ : Session).authentication_status
        ≠ some true := by
  refine ⟨by decide, by decide, rfl, by decide, by decide, by decide⟩

/-- C4, counterexample. The claim fails as stated: a submission whose new
username is already taken but whose (matching) password is empty falls into
the conjunctive emptiness guard first and returns the empty-fields status,
not "Username already taken". -/
theorem registerCredentials_taken_counterexample :
    (dictFind credsC "alice").isSome = true ∧
    (registerCredentials hashC "alice" "New Alice" "" "" "x@example.com"
        false credsC []).1
      = "Please enter a new username, name, and password" ∧
    (registerCredentials hashC "alice" "New Alice" "" "" "x@example.com"
        false credsC []).1
      ≠ "Username already taken" := by
  refine ⟨by decide, rfl, by decide⟩

/-- C4, amended. For every registration submission whose new username,
name and password are all non-empty and whose new username already exists as
a key of the credentials map, `_register_credentials` returns the status
"Username already taken" — regardless of whether the supplied password and
its confirmation match — and leaves both stores unchanged. -/
theorem registerCredentials_taken (hashPw : String → String)
    (u n p pr e : String) (b : Bool) (creds : Creds) (pre : PreDict)
    (hu : u.length ≠ 0) (hn : n.length ≠ 0) (hp : p.length > 0)
    (hdup : (dictFind creds u).isSome = true) :
    registerCredentials hashPw u n p pr e b creds pre
      = ("Username already taken", creds, pre) := by
  have h2 : ¬ ((dictFind creds u).isNone = true) := by
    simp [Option.isNone_iff_eq_none]
    intro hc
    rw [hc] at hdup
    simp at hdup
  unfold registerCredentials
  rw [if_pos ⟨hu, hn, hp⟩, if_neg h2]

theorem registerCredentials_taken_witness :
    registerCredentials hashC "alice" "X" "a" "b" "e@x" false credsC []
      = ("Username already taken", credsC, []) :=
  registerCredentials_taken hashC "alice" "X" "a" "b" "e@x" false credsC []
    (by decide) (by decide) (by decide) (by decide)

/-- C5. For every registration submission in which the password and its
confirmation differ, `_register_credentials` returns a failure status (one of
the three non-success statuses) and leaves both the credentials map and the
preauthorized dictionary exactly as they were. -/
theorem registerCredentials_mismatch (hashPw : String → String)
    (u n p pr e : String) (b : Bool) (creds : Creds) (pre : PreDict)
    (hne : p ≠ pr) :
    (registerCredentials hashPw u n p pr e b creds pre).1
        ∈ ["Passwords do not match", "Username already taken",
           "Please enter a new username, name, and password"] ∧
    (registerCredentials hashPw u n p pr e b creds pre).2.1 = creds ∧
    (registerCredentials hashPw u n p pr e b creds pre).2.2 = pre := by
  unfold registerCredentials
  by_cases h1 : u.length ≠ 0 ∧ n.length ≠ 0 ∧ p.length > 0
  · rw [if_pos h1]
    by_cases h2 : (dictFind creds u).isNone = true
    · rw [if_pos h2, if_neg hne]
      exact ⟨by simp, rfl, rfl⟩
    · rw [if_neg h2]
      exact ⟨by simp, rfl, rfl⟩
  · rw [if_neg h1]
    exact ⟨by simp, rfl, rfl⟩

theorem registerCredentials_mismatch_witness :
    (registerCredentials hashC "bob" "Bob" "a" "b" "e@x" true credsC
        [("emails", ["e@x"])]).1
        ∈ ["Passwords do not match", "Username already taken",
           "Please enter a new username, name, and password"] ∧
    (registerCredentials hashC "bob" "Bob" "a" "b" "e@x" true credsC
        [("emails", ["e@x"])]).2.1 = credsC ∧
    (registerCredentials hashC "bob" "Bob" "a" "b" "e@x" true credsC
        [("emails", ["e@x"])]).2.2 = [("emails", ["e@x"])] :=
  registerCredentials_mismatch hashC "bob" "Bob" "a" "b" "e@x" true credsC
    [("emails", ["e@x"])] (by decide)

/-- C6. `_update_password` overwrites the stored password hash for a
username if and only if the supplied current credentials verify (the
username is known and the bcrypt check returns `True`), the new password is
non-empty, and the new password equals its confirmation.  When it overwrites,
the new stored value is the hash of the new password; each failure case
yields its own distinct status string and leaves the store unmutated. -/
theorem updatePassword_spec (checkpw : String → String → Except Unit Bool)
    (hashPw : String → String) (u p np npr : String) (creds : Creds) :
    (∀ entry, dictFind creds u = some entry →
      checkpw p entry.password = .ok true →
      ((np.length > 0 → np = npr →
          updatePassword checkpw hashPw u p np npr creds
            = ("Password reset successfully",
               overwritePassword creds u (hashPw np)) ∧
          dictFind (updatePassword checkpw hashPw u p np npr creds).2 u
            = some { entry with password := hashPw np }) ∧
       (np.length = 0 →
          updatePassword checkpw hashPw u p np npr creds
            = ("Please enter a new password", creds)) ∧
       (np.length > 0 → np ≠ npr →
          updatePassword checkpw hashPw u p np npr creds
            = ("Passwords do not match", creds))))
    ∧ ((∀ entry, dictFind creds u = some entry →
          checkpw p entry.password ≠ .ok true) →
        updatePassword checkpw hashPw u p np npr creds
          = ("Username/password is incorrect", creds)) := by
  constructor
  · intro entry he hok
    have hv : truthy (checkCredentials checkpw "" 0 0 u p false
        ⟨creds, none, initSession⟩).2 = true := by
      simp [checkCredentials, he, hok, truthy]
    refine ⟨fun hlen heq => ?_, fun hlen => ?_, fun hlen hne => ?_⟩
    · have h1 : updatePassword checkpw hashPw u p np npr creds
          = ("Password reset successfully",
             overwritePassword creds u (hashPw np)) := by
        unfold updatePassword
        rw [if_pos hv, if_pos hlen, if_pos heq]
      refine ⟨h1, ?_⟩
      rw [h1]
      rw [dictFind_overwritePassword_self, he]
      rfl
    · unfold updatePassword
      rw [if_pos hv, if_neg (by omega)]
    · unfold updatePassword
      rw [if_pos hv, if_pos hlen, if_neg hne]
  · intro hne
    have hv : truthy (checkCredentials checkpw "" 0 0 u p false
        ⟨creds, none, initSession⟩).2 = false := by
      cases he : dictFind creds u with
      | none => simp [checkCredentials, he, truthy]
      | some e =>
        cases hc : checkpw p e.password with
        | error v => simp [checkCredentials, he, hc, truthy]
        | ok bv =>
          cases bv with
          | false => simp [checkCredentials, he, hc, truthy]
          | true => exact absurd hc (hne e he)
    unfold updatePassword
    rw [if_neg (by simp [hv])]

theorem updatePassword_spec_witness :
    updatePassword cpwC hashC "alice" "pw" "new" "new" credsC
      = ("Password reset successfully", overwritePassword credsC "alice" (hashC "new")) ∧
    updatePassword cpwC hashC "alice" "bad" "new" "new" credsC
      = ("Username/password is incorrect", credsC) := by
  constructor
  · exact (((updatePassword_spec cpwC hashC "alice" "pw" "new" "new" credsC).1
      entryAlice (by decide) rfl).1 (by decide) rfl).1
  · refine (updatePassword_spec cpwC hashC "alice" "bad" "new" "new" credsC).2 ?_
    intro entry he
    have : entry = entryAlice := by
      have h2 : dictFind credsC "alice" = some entryAlice := by decide
      rw [h2] at he
      exact (Option.some_inj.mp he).symm
    subst this
    intro hc
    simp [cpwC, entryAlice] at hc

/-- C7. For every entered username whose lowercasing is absent from the
credentials map, the submitted forgot-password flow returns the triple
`(None, None, None)` and leaves the credentials map unchanged; for every
entered username whose lowercasing is present, it overwrites that user's
stored hash with the hash of the freshly generated (non-empty) password and
returns the username, the stored email, and the new plaintext password. -/
theorem forgotPassword_spec (hashPw : String → String) (randomPw raw : String)
    (creds : Creds) (hr : randomPw.length ≠ 0) :
    (dictFind creds (pyLower raw) = none →
      forgotPassword hashPw randomPw raw creds = ((none, none, none), creds))
    ∧ (∀ entry, dictFind creds (pyLower raw) = some entry →
        forgotPassword hashPw randomPw raw creds
          = ((some (pyLower raw), some entry.email, some randomPw),
             overwritePassword creds (pyLower raw) (hashPw randomPw)) ∧
        dictFind (forgotPassword hashPw randomPw raw creds).2 (pyLower raw)
          = some { entry with password := hashPw randomPw }) := by
  constructor
  · intro he
    simp [forgotPassword, setPassword, he, truthyStr]
  · intro entry he
    have hs : setPassword hashPw randomPw (pyLower raw) creds
        = (some randomPw, overwritePassword creds (pyLower raw) (hashPw randomPw)) := by
      simp [setPassword, he]
    have hfind : dictFind (overwritePassword creds (pyLower raw) (hashPw randomPw)) (pyLower raw)
        = some { entry with password := hashPw randomPw } := by
      rw [dictFind_overwritePassword_self, he]
      rfl
    have h1 : forgotPassword hashPw randomPw raw creds
        = ((some (pyLower raw), some entry.email, some randomPw),
           overwritePassword creds (pyLower raw) (hashPw randomPw)) := by
      simp only [forgotPassword]
      rw [hs]
      simp [truthyStr, hr, hfind, bne_iff_ne]
    refine ⟨h1, ?_⟩
    rw [h1]
    exact hfind

theorem forgotPassword_spec_witness :
    forgotPassword hashC "npw" "ALICE" credsC
      = ((some (pyLower "ALICE"), some "alice@example.com", some "npw"),
         overwritePassword credsC (pyLower "ALICE") (hashC "npw")) := by
  have h := ((forgotPassword_spec hashC "npw" "ALICE" credsC (by decide)).2
    entryAlice (by decide)).1
  rw [h]
  rfl

/-- The function `_register_credentials` preserves the lowercase/unique-keys invariant
whenever the username it inserts is already lowercased. -/
theorem credsInvariant_registerCredentials (hashPw : String → String)
    (u n p pr e : String) (b : Bool) (creds : Creds) (pre : PreDict)
    (hc : credsInvariant creds) (hu : pyLower u = u) :
    credsInvariant (registerCredentials hashPw u n p pr e b creds pre).2.1 := by
  unfold registerCredentials
  by_cases h1 : u.length ≠ 0 ∧ n.length ≠ 0 ∧ p.length > 0
  · rw [if_pos h1]
    by_cases h2 : (dictFind creds u).isNone = true
    · rw [if_pos h2]
      by_cases h3 : p = pr
      · rw [if_pos h3]
        exact credsInvariant_dictSet creds u ⟨n, hashPw p, e⟩ hc hu
      · rw [if_neg h3]
        exact hc
    · rw [if_neg h2]
      exact hc
  · rw [if_neg h1]
    exact hc

/-- The function `_update_password` preserves the lowercase/unique-keys invariant (it only
ever overwrites the value stored under an existing key). -/
theorem credsInvariant_updatePassword
    (checkpw : String → String → Except Unit Bool) (hashPw : String → String)
    (u p np npr : String) (creds : Creds) (hc : credsInvariant creds) :
    credsInvariant (updatePassword checkpw hashPw u p np npr creds).2 := by
  unfold updatePassword
  by_cases h1 : truthy (checkCredentials checkpw "" 0 0 u p false
      ⟨creds, none, initSession⟩).2 = true
  · rw [if_pos h1]
    by_cases h2 : np.length > 0
    · rw [if_pos h2]
      by_cases h3 : np = npr
      · rw [if_pos h3]
        exact credsInvariant_overwritePassword creds u (hashPw np) hc
      · rw [if_neg h3]
        exact hc
    · rw [if_neg h2]
      exact hc
  · rw [if_neg h1]
    exact hc

/-- The submitted forgot-password flow preserves the lowercase/unique-keys
invariant. -/
theorem credsInvariant_forgotPassword (hashPw : String → String)
    (randomPw raw : String) (creds : Creds) (hc : credsInvariant creds) :
    credsInvariant (forgotPassword hashPw randomPw raw creds).2 := by
  have hset : credsInvariant (setPassword hashPw randomPw (pyLower raw) creds).2 := by
    unfold setPassword
    by_cases h1 : (dictFind creds (pyLower raw)).isSome = true
    · rw [if_pos h1]
      exact credsInvariant_overwritePassword creds (pyLower raw) (hashPw randomPw) hc
    · rw [if_neg h1]
      exact hc
  simp only [forgotPassword]
  by_cases h2 : truthyStr (setPassword hashPw randomPw (pyLower raw) creds).1 = true
  · rw [if_pos h2]
    exact hset
  · rw [if_neg h2]
    exact hset

/-- C9. After construction (the lowercasing dict comprehension in
`__init__`), every key of the credentials usernames map is lowercase and the
keys are unique; and this invariant is preserved by every operation that
mutates the map: `register_user` inserts only a lowercased new username,
while the submitted password-reset and forgot-password flows look up and
overwrite only under lowercased usernames. -/
theorem credentials_invariant (input : Creds) (hashPw : String → String)
    (checkpw : String → String → Except Unit Bool)
    (e raw n p pr np npr rp : String) (b sub : Bool)
    (creds : Creds) (preM : Preauth) (hc : credsInvariant creds) :
    credsInvariant (buildUsernames input)
    ∧ (∀ r, registerUser hashPw e raw n p pr b sub creds preM = .ok r →
        credsInvariant r.2.1)
    ∧ credsInvariant (resetPasswordSubmit checkpw hashPw raw p np npr creds).2
    ∧ credsInvariant (forgotPassword hashPw rp raw creds).2 := by
  refine ⟨credsInvariant_buildUsernames input, ?_,
    credsInvariant_updatePassword checkpw hashPw (pyLower raw) p np npr creds hc,
    credsInvariant_forgotPassword hashPw rp raw creds hc⟩
  intro r hr
  match preM with
  | none => simp [registerUser] at hr
  | some [] => simp [registerUser] at hr
  | some (kv :: rest) =>
    simp only [registerUser] at hr
    by_cases hsub : sub = true
    · rw [if_pos hsub] at hr
      by_cases hb : b = true
      · rw [if_pos hb] at hr
        by_cases hm : e ∈ preEmails (kv :: rest)
        · rw [if_pos hm] at hr
          cases hr
          exact credsInvariant_registerCredentials hashPw (pyLower raw) n p pr e b
            creds (kv :: rest) hc (pyLower_idem raw)
        · rw [if_neg hm] at hr
          cases hr
          exact hc
      · rw [if_neg hb] at hr
        cases hr
        exact credsInvariant_registerCredentials hashPw (pyLower raw) n p pr e b
          creds (kv :: rest) hc (pyLower_idem raw)
    · rw [if_neg hsub] at hr
      cases hr
      exact hc

theorem credentials_invariant_witness :
    credsInvariant (buildUsernames [("ALICE", entryAlice), ("Bob", entryAlice)])
    ∧ credsInvariant (resetPasswordSubmit cpwC hashC "ALICE" "pw" "n1" "n1" credsC).2 := by
  have h := credentials_invariant [("ALICE", entryAlice), ("Bob", entryAlice)]
    hashC cpwC "e@x" "ALICE" "N" "p1" "p1" "n1" "n1" "rp1" true true credsC
    (some [("emails", ["e@x"])]) (by decide)
  exact ⟨h.1, h.2.2.1⟩

end StreamlitAuth
